import Mathlib

/-!
Shallow embedding of `src/app.py` (boulderbar-capacity-tracker): a poll/store/serve
loop over a SQLite table `capacity(timestamp TEXT, location_id INTEGER,
location_name TEXT, capacity INTEGER, PRIMARY KEY (timestamp, location_id))`.

Modelling conventions:
* The `timestamp` column holds `datetime.now(timezone.utc).isoformat()` strings.
  For one fixed format family these ISO-8601 UTC strings compare lexicographically
  (SQLite TEXT comparison) in the same order as the instants they denote, so the
  column is embedded as the instant itself: an `Int`, in seconds relative to the
  Unix epoch.  SQLite TEXT comparison and `timedelta` arithmetic become `Int`
  comparison and arithmetic at that scale.
* The table is a `List Row` in insertion order; `SELECT ... ORDER BY timestamp,
  location_id` is `List.mergeSort` with the lexicographic key order.
* `with sqlite3.connect(...)` commits on normal exit and rolls back when a
  statement raises, so the insert loop of `fetch_and_store` is modelled as an
  all-or-nothing `appendBatch`: on the first primary-key violation the original
  table is kept.
* Python exceptions are `Except` / `Option` errors; the bare `except Exception`
  in `fetch_and_store` turns every error into "table unchanged".
* Python `==` against the literal `1` (line `data.get("status") == 1`) is
  modelled over the values the `json` module can produce for `status`:
  `True == 1` and `1.0 == 1` hold in Python; strings, `None`, lists and dicts
  never equal `1`.
* `datetime` and `timedelta` are bounded in Python: `timedelta(hours=h)` raises
  `OverflowError` when the normalized day count exceeds 999999999, and aware
  `datetime - timedelta` raises `OverflowError` when the result leaves
  [0001-01-01, 9999-12-31].  Both bounds are embedded (in epoch seconds).
-/

namespace BoulderBar

/-- One row of the `capacity` table. -/
structure Row where
  timestamp : Int
  location_id : Int
  location_name : String
  capacity : Int
deriving DecidableEq

/-- The primary-key columns `(timestamp, location_id)` of a row. -/
def rowKey (r : Row) : Int × Int :=
  (r.timestamp, r.location_id)

/-- Does the table already hold a row with this row's primary key?
(SQLite's uniqueness check for `PRIMARY KEY (timestamp, location_id)`.) -/
def hasKey (tbl : List Row) (r : Row) : Bool :=
  tbl.any (fun q => rowKey q == rowKey r)

/-- One `INSERT INTO capacity VALUES (?, ?, ?, ?)`: fails with an
`IntegrityError` when the primary key is already present. -/
def insertRow (tbl : List Row) (r : Row) : Except String (List Row) :=
  if hasKey tbl r then
    Except.error "UNIQUE constraint failed: capacity.timestamp, capacity.location_id"
  else
    Except.ok (tbl ++ [r])

/-- The insert loop of `fetch_and_store` inside one `with sqlite3.connect(...)`
block: all rows are inserted in one transaction; the first failure aborts and
(via the context manager's rollback) the caller keeps the original table. -/
def appendBatch : List Row → List Row → Except String (List Row)
  | tbl, [] => Except.ok tbl
  | tbl, r :: rs =>
    match insertRow tbl r with
    | Except.error e => Except.error e
    | Except.ok tbl2 => appendBatch tbl2 rs

/-- A Python value that `json.loads` can leave in the top-level `status` field. -/
inductive StatusVal where
  | int (n : Int)
  | float (q : ℚ)
  | bool (b : Bool)
  | str (s : String)
  | null
  | other
deriving DecidableEq

/-- Python `v == 1` for such a value: `1 == 1`, `1.0 == 1` and `True == 1` are
`True`; strings, `None`, lists and dicts never compare equal to `1`. -/
def pyEqOneVal : StatusVal → Bool
  | StatusVal.int n => n == 1
  | StatusVal.float q => q == 1
  | StatusVal.bool b => b
  | StatusVal.str _ => false
  | StatusVal.null => false
  | StatusVal.other => false

/-- `data.get("status") == 1`: `dict.get` yields `None` (never equal to `1`)
when the key is absent. -/
def statusIsOne : Option StatusVal → Bool
  | none => false
  | some v => pyEqOneVal v

/-- One entry of the response's `data` array, with the three fields the
collector reads: `id`, `title`, `capacity`. -/
structure LocationEntry where
  id : Int
  title : String
  capacity : Int
deriving DecidableEq

/-- A parsed JSON response body: the top-level `status` value (if the key is
present) and the `data` array (if that key is present; accessing a missing
`data` key raises `KeyError`, which the collector's bare `except` catches). -/
structure ApiResp where
  status : Option StatusVal
  data : Option (List LocationEntry)
deriving DecidableEq

/-- Outcome of `requests.get(API_URL, timeout=10)` / `raise_for_status()` /
`response.json()`: the three ways those calls raise, or a parsed body. -/
inductive FetchOutcome where
  | networkError
  | httpError
  | malformedJson
  | parsed (resp : ApiResp)
deriving DecidableEq

/-- The sample batch one tick builds from the `data` array: one row per entry,
all carrying the single `timestamp` captured once per invocation. -/
def rowsOf (entries : List LocationEntry) (now : Int) : List Row :=
  entries.map (fun l => { timestamp := now, location_id := l.id,
                          location_name := l.title, capacity := l.capacity })

/-- `fetch_and_store()` acting on the table.  `now` is the instant
`datetime.now(timezone.utc)` captured once per invocation; `outcome` is what the
network stack produced.  Every raised exception (fetch failure, `KeyError` on a
missing `data` key, `IntegrityError` during an insert) reaches the bare
`except Exception`, so the function always returns and the table survives
unchanged in each of those cases. -/
def fetch_and_store (tbl : List Row) (outcome : FetchOutcome) (now : Int) : List Row :=
  match outcome with
  | FetchOutcome.networkError => tbl
  | FetchOutcome.httpError => tbl
  | FetchOutcome.malformedJson => tbl
  | FetchOutcome.parsed resp =>
    if statusIsOne resp.status then
      match resp.data with
      | none => tbl
      | some entries =>
        match appendBatch tbl (rowsOf entries now) with
        | Except.ok tbl2 => tbl2
        | Except.error _ => tbl
    else
      tbl

/-- `ORDER BY timestamp, location_id`: non-strict lexicographic key order. -/
def rowLe (a b : Row) : Bool :=
  decide (a.timestamp < b.timestamp) ||
    (a.timestamp == b.timestamp && decide (a.location_id ≤ b.location_id))

/-- The optional `WHERE timestamp >= ?` clause of `get_data`. -/
def sinceFilter (since : Option Int) (tbl : List Row) : List Row :=
  match since with
  | none => tbl
  | some s => tbl.filter (fun r => decide (s ≤ r.timestamp))

/-- The `SELECT timestamp, location_id, location_name, capacity FROM capacity
[WHERE timestamp >= ?] ORDER BY timestamp, location_id` query. -/
def queryRows (tbl : List Row) (since : Option Int) : List Row :=
  (sinceFilter since tbl).mergeSort rowLe

/-- Python `timedelta(hours=h)`, in seconds: raises `OverflowError` (`none`)
when the normalized day count `floor(h*3600 / 86400)` exceeds 999999999 in
magnitude. -/
def timedeltaHours (h : Int) : Option Int :=
  if ((h * 3600).fdiv 86400).natAbs ≤ 999999999 then some (h * 3600) else none

/-- `datetime.min` = 0001-01-01T00:00:00, in seconds before the Unix epoch. -/
def pyDatetimeMinS : Int := -62135596800

/-- `datetime.max` = 9999-12-31T23:59:59(.999999), in seconds past the epoch. -/
def pyDatetimeMaxS : Int := 253402300799

/-- Aware `datetime - timedelta`: raises `OverflowError` (`none`) when the
result leaves the representable `datetime` range. -/
def datetimeSub (now delta : Int) : Option Int :=
  if pyDatetimeMinS ≤ now - delta ∧ now - delta ≤ pyDatetimeMaxS then
    some (now - delta)
  else
    none

/-- The row-selection stage of `get_data`: compute the optional `since` bound
from `hours` (an uncaught `OverflowError`, i.e. `none`, becomes an HTTP 500)
and run the query. -/
def selectRows (tbl : List Row) (now : Int) (hours : Int) : Option (List Row) :=
  if 0 < hours then
    match timedeltaHours hours with
    | none => none
    | some delta =>
      match datetimeSub now delta with
      | none => none
      | some since => some (queryRows tbl (some since))
  else
    some (queryRows tbl none)

/-- The per-location series the endpoint returns: two parallel lists. -/
structure Series where
  timestamps : List Int
  capacities : List Int
deriving DecidableEq

/-- One iteration of the grouping loop of `get_data`: create the entry on first
sight of a name (Python dicts preserve insertion order), then append to both
parallel lists of that name's entry. -/
def addRow (data : List (String × Series)) (r : Row) : List (String × Series) :=
  if data.any (fun p => p.1 == r.location_name) then
    data.map (fun p =>
      if p.1 == r.location_name then
        (p.1, { timestamps := p.2.timestamps ++ [r.timestamp],
                capacities := p.2.capacities ++ [r.capacity] })
      else p)
  else
    data ++ [(r.location_name,
              { timestamps := [r.timestamp], capacities := [r.capacity] })]

/-- The grouping loop of `get_data`, row by row over the query result. -/
def groupLoop : List Row → List (String × Series) → List (String × Series)
  | [], data => data
  | r :: rs, data => groupLoop rs (addRow data r)

/-- `get_data`'s reshaping of the ordered rows into the response mapping. -/
def groupRows (rows : List Row) : List (String × Series) :=
  groupLoop rows []

/-- Lookup in the response mapping by location name. -/
def lookupSeries (data : List (String × Series)) (name : String) : Option Series :=
  (data.find? (fun p => p.1 == name)).map (fun p => p.2)

/-- Specification-side series for one name: project the rows carrying that
name, in order, into the two parallel lists. -/
def seriesFor (rows : List Row) (name : String) : Series :=
  { timestamps := (rows.filter (fun r => r.location_name == name)).map Row.timestamp,
    capacities := (rows.filter (fun r => r.location_name == name)).map Row.capacity }

/-- Specification-side first-seen order of a list of names. -/
def firstSeen (names : List String) : List String :=
  names.foldl (fun acc n => if acc.any (fun m => m == n) then acc else acc ++ [n]) []

/-- The whole `GET /api/data` handler for an already-parsed integer `hours`:
`none` models an exception escaping the handler (HTTP 500). -/
def get_data (tbl : List Row) (now : Int) (hours : Int) :
    Option (List (String × Series)) :=
  (selectRows tbl now hours).map groupRows

/-- Process-level state for the scheduler/startup claims.  `fetchCount` is a
ghost counter of `fetch_and_store` invocations (each one issues a remote
request); the rest mirrors `scheduler.running`, the number of armed interval
jobs, the module-global `scheduler_started` flag, the schema, and the table. -/
structure ProcState where
  schedulerRunning : Bool
  jobs : Nat
  schedulerStarted : Bool
  schemaExists : Bool
  table : List Row
  fetchCount : Nat
deriving DecidableEq

/-- `init_db()`: `CREATE TABLE IF NOT EXISTS` / `CREATE INDEX IF NOT EXISTS`. -/
def init_db (s : ProcState) : ProcState :=
  { s with schemaExists := true }

/-- `start_scheduler()`: `init_db()`, one synchronous `fetch_and_store()`, then
arm the 5-minute interval job unless `scheduler.running` already holds.  The
tick's fetch outcome and captured instant are inputs. -/
def start_scheduler (s : ProcState) (o : FetchOutcome) (now : Int) : ProcState :=
  let s1 := init_db s
  let s2 := { s1 with table := fetch_and_store s1.table o now,
                      fetchCount := s1.fetchCount + 1 }
  if s2.schedulerRunning then s2
  else { s2 with jobs := s2.jobs + 1, schedulerRunning := true }

/-- The `before_request` hook `_ensure_scheduler_started`: double-checked flag
around `start_scheduler()` (the lock collapses in this sequential model). -/
def ensure_scheduler_started (s : ProcState) (o : FetchOutcome) (now : Int) : ProcState :=
  if s.schedulerStarted then s
  else { start_scheduler s o now with schedulerStarted := true }

/-! ## Helper lemmas -/

theorem rowLe_trans (a b c : Row) (h1 : rowLe a b = true) (h2 : rowLe b c = true) :
    rowLe a c = true := by
  simp only [rowLe, Bool.or_eq_true, Bool.and_eq_true, decide_eq_true_eq, beq_iff_eq] at *
  omega

theorem rowLe_total (a b : Row) : (rowLe a b || rowLe b a) = true := by
  simp only [rowLe, Bool.or_eq_true, Bool.and_eq_true, decide_eq_true_eq, beq_iff_eq]
  omega

theorem hasKey_append (tbl1 tbl2 : List Row) (r : Row) :
    hasKey (tbl1 ++ tbl2) r = (hasKey tbl1 r || hasKey tbl2 r) := by
  simp [hasKey, List.any_append]

theorem hasKey_singleton (q r : Row) :
    hasKey [q] r = (rowKey q == rowKey r) := by
  simp [hasKey]

/-- Inserting a batch of key-distinct rows, none of whose keys occur in the
table, succeeds and appends the batch in order. -/
theorem appendBatch_ok (batch : List Row) : ∀ tbl : List Row,
    (∀ r ∈ batch, hasKey tbl r = false) →
    batch.Pairwise (fun a b => rowKey a ≠ rowKey b) →
    appendBatch tbl batch = Except.ok (tbl ++ batch) := by
  induction batch with
  | nil => intro tbl _ _; simp [appendBatch]
  | cons r rs ih =>
    intro tbl hk hnd
    have hkr : hasKey tbl r = false := hk r (List.mem_cons_self r rs)
    have step : insertRow tbl r = Except.ok (tbl ++ [r]) := by
      simp [insertRow, hkr]
    have hnd' := (List.pairwise_cons.mp hnd)
    have hk' : ∀ q ∈ rs, hasKey (tbl ++ [r]) q = false := by
      intro q hq
      rw [hasKey_append]
      have h1 : hasKey tbl q = false := hk q (List.mem_cons_of_mem r hq)
      have h2 : hasKey [r] q = false := by
        rw [hasKey_singleton]
        exact beq_eq_false_iff_ne.mpr (hnd'.1 q hq)
      simp [h1, h2]
    calc appendBatch tbl (r :: rs)
        = appendBatch (tbl ++ [r]) rs := by simp [appendBatch, step]
      _ = Except.ok ((tbl ++ [r]) ++ rs) := ih (tbl ++ [r]) hk' hnd'.2
      _ = Except.ok (tbl ++ (r :: rs)) := by simp

/-- A successful batch insert appends exactly the batch. -/
theorem appendBatch_ok_eq (batch : List Row) : ∀ tbl t : List Row,
    appendBatch tbl batch = Except.ok t → t = tbl ++ batch := by
  induction batch with
  | nil =>
    intro tbl t h
    simp [appendBatch] at h
    simp [h.symm]
  | cons r rs ih =>
    intro tbl t h
    unfold appendBatch at h
    cases hins : insertRow tbl r with
    | error e => rw [hins] at h; cases h
    | ok tbl2 =>
      rw [hins] at h
      have htbl2 : tbl2 = tbl ++ [r] := by
        unfold insertRow at hins
        by_cases hk : hasKey tbl r = true
        · simp [hk] at hins
        · simp [eq_false_of_ne_true hk] at hins
          exact hins.symm
      subst htbl2
      have := ih (tbl ++ [r]) t h
      simpa using this

/-! ## Claim theorems -/

/-- C1: append of one tick's batch is all-or-nothing.  If the insert loop of
`fetch_and_store` fails on any sample of the batch (in particular on a
duplicate `(timestamp, location_id)` primary key), no sample of the batch is
persisted and the previously stored rows are returned unchanged. -/
theorem fetch_and_store_atomic (tbl : List Row) (resp : ApiResp)
    (entries : List LocationEntry) (now : Int) (e : String)
    (hdata : resp.data = some entries)
    (hfail : appendBatch tbl (rowsOf entries now) = Except.error e) :
    fetch_and_store tbl (FetchOutcome.parsed resp) now = tbl := by
  cases hs : statusIsOne resp.status <;>
    simp [fetch_and_store, hdata, hs, hfail]

/-- Witness for C1: a batch whose second sample duplicates an existing
primary key is rejected and the stored row survives unchanged. -/
theorem fetch_and_store_atomic_witness :
    appendBatch [⟨100, 260, "A", 5⟩]
        (rowsOf [⟨261, "B", 9⟩, ⟨260, "A", 7⟩] 100) =
      Except.error
        "UNIQUE constraint failed: capacity.timestamp, capacity.location_id" ∧
    fetch_and_store [⟨100, 260, "A", 5⟩]
        (FetchOutcome.parsed
          ⟨some (StatusVal.int 1), some [⟨261, "B", 9⟩, ⟨260, "A", 7⟩]⟩) 100 =
      [⟨100, 260, "A", 5⟩] :=
  ⟨rfl,
    fetch_and_store_atomic [⟨100, 260, "A", 5⟩]
      ⟨some (StatusVal.int 1), some [⟨261, "B", 9⟩, ⟨260, "A", 7⟩]⟩
      [⟨261, "B", 9⟩, ⟨260, "A", 7⟩] 100
      "UNIQUE constraint failed: capacity.timestamp, capacity.location_id"
      rfl rfl⟩

/-- C2: round trip.  A batch with pairwise-distinct `(timestamp, location_id)`
keys appended to an empty store is returned exactly (as a permutation) by a
query whose `since` bound is earlier than all batch timestamps (or absent),
ordered ascending by `(timestamp, location_id)`. -/
theorem round_trip (batch : List Row) (since : Option Int)
    (hkeys : batch.Pairwise (fun a b => rowKey a ≠ rowKey b))
    (hsince : ∀ s : Int, since = some s → ∀ r ∈ batch, s < r.timestamp) :
    appendBatch [] batch = Except.ok batch ∧
    (queryRows batch since).Perm batch ∧
    (queryRows batch since).Pairwise (fun a b => rowLe a b = true) := by
  have hfil : sinceFilter since batch = batch := by
    cases since with
    | none => rfl
    | some s =>
      simp only [sinceFilter]
      rw [List.filter_eq_self]
      intro r hr
      have := hsince s rfl r hr
      simp only [decide_eq_true_eq]
      omega
  refine ⟨?_, ?_, ?_⟩
  · have h := appendBatch_ok batch []
      (by intro r _; simp [hasKey]) hkeys
    simpa using h
  · unfold queryRows
    rw [hfil]
    exact List.mergeSort_perm batch rowLe
  · unfold queryRows
    exact List.sorted_mergeSort rowLe_trans rowLe_total _

/-- Witness for C2 at a concrete three-row batch and `since = 50`. -/
theorem round_trip_witness :
    appendBatch [] [⟨100, 1, "A", 10⟩, ⟨100, 2, "B", 5⟩, ⟨200, 1, "A", 12⟩] =
      Except.ok [⟨100, 1, "A", 10⟩, ⟨100, 2, "B", 5⟩, ⟨200, 1, "A", 12⟩] ∧
    (queryRows [⟨100, 1, "A", 10⟩, ⟨100, 2, "B", 5⟩, ⟨200, 1, "A", 12⟩]
        (some 50)).Perm
      [⟨100, 1, "A", 10⟩, ⟨100, 2, "B", 5⟩, ⟨200, 1, "A", 12⟩] ∧
    (queryRows [⟨100, 1, "A", 10⟩, ⟨100, 2, "B", 5⟩, ⟨200, 1, "A", 12⟩]
        (some 50)).Pairwise (fun a b => rowLe a b = true) :=
  round_trip [⟨100, 1, "A", 10⟩, ⟨100, 2, "B", 5⟩, ⟨200, 1, "A", 12⟩]
    (some 50) (by decide)
    (by
      intro s hs r hr
      injection hs with h
      subst h
      fin_cases hr <;> decide)

/-- C5: fetch failure isolation.  A network error, a non-2xx HTTP status
(`raise_for_status`), or malformed JSON is swallowed by the collector: the
table gains zero rows and `fetch_and_store` returns normally (it is a total
function into the unchanged table). -/
theorem fetch_failure_isolated (tbl : List Row) (now : Int) :
    fetch_and_store tbl FetchOutcome.networkError now = tbl ∧
    fetch_and_store tbl FetchOutcome.httpError now = tbl ∧
    fetch_and_store tbl FetchOutcome.malformedJson now = tbl :=
  ⟨rfl, rfl, rfl⟩

/-- C7: one timestamp per tick.  Every sample built from the `data` array
carries the single `timestamp` captured once per invocation, with `id`,
`title`, `capacity` mapped from its entry; and every row of the post-tick
table is either an old row or one of these batch rows. -/
theorem single_timestamp_per_tick (tbl : List Row) (resp : ApiResp)
    (entries : List LocationEntry) (now : Int)
    (hdata : resp.data = some entries) :
    (∀ r ∈ rowsOf entries now, r.timestamp = now) ∧
    (∀ r ∈ rowsOf entries now, ∃ e ∈ entries, r = ⟨now, e.id, e.title, e.capacity⟩) ∧
    (∀ r ∈ fetch_and_store tbl (FetchOutcome.parsed resp) now,
      r ∈ tbl ∨ r ∈ rowsOf entries now) := by
  refine ⟨?_, ?_, ?_⟩
  · intro r hr
    simp only [rowsOf, List.mem_map] at hr
    obtain ⟨e, _, rfl⟩ := hr
    rfl
  · intro r hr
    simp only [rowsOf, List.mem_map] at hr
    obtain ⟨e, he, rfl⟩ := hr
    exact ⟨e, he, rfl⟩
  · intro r hr
    cases hs : statusIsOne resp.status with
    | false => simp [fetch_and_store, hs] at hr; exact Or.inl hr
    | true =>
      simp only [fetch_and_store, hs, hdata, if_true] at hr
      cases hap : appendBatch tbl (rowsOf entries now) with
      | error e => rw [hap] at hr; exact Or.inl hr
      | ok t =>
        rw [hap] at hr
        have := appendBatch_ok_eq (rowsOf entries now) tbl t hap
        subst this
        exact (List.mem_append.mp hr)

/-- Witness for C7 at a two-entry response. -/
theorem single_timestamp_per_tick_witness :
    (∀ r ∈ rowsOf [⟨260, "A", 5⟩, ⟨261, "B", 9⟩] 100, r.timestamp = 100) ∧
    (∀ r ∈ rowsOf [⟨260, "A", 5⟩, ⟨261, "B", 9⟩] 100,
      ∃ e ∈ [(⟨260, "A", 5⟩ : LocationEntry), ⟨261, "B", 9⟩],
        r = ⟨100, e.id, e.title, e.capacity⟩) ∧
    (∀ r ∈ fetch_and_store []
        (FetchOutcome.parsed
          ⟨some (StatusVal.int 1), some [⟨260, "A", 5⟩, ⟨261, "B", 9⟩]⟩) 100,
      r ∈ ([] : List Row) ∨ r ∈ rowsOf [⟨260, "A", 5⟩, ⟨261, "B", 9⟩] 100) :=
  single_timestamp_per_tick [] ⟨some (StatusVal.int 1), some [⟨260, "A", 5⟩, ⟨261, "B", 9⟩]⟩
    [⟨260, "A", 5⟩, ⟨261, "B", 9⟩] 100 rfl

/-- Characterization of the row-selection stage of `get_data`: when the
`since` computation stays inside Python's `timedelta`/`datetime` bounds the
handler selects exactly the rows passing the lookback filter. -/
theorem selectRows_spec (tbl : List Row) (now hours : Int)
    (hok : 0 < hours → ((hours * 3600).fdiv 86400).natAbs ≤ 999999999 ∧
      pyDatetimeMinS ≤ now - hours * 3600 ∧ now - hours * 3600 ≤ pyDatetimeMaxS) :
    ∃ l, selectRows tbl now hours = some l ∧
      ∀ r, r ∈ l ↔ (r ∈ tbl ∧ (0 < hours → now - hours * 3600 ≤ r.timestamp)) := by
  by_cases hpos : 0 < hours
  · obtain ⟨h1, h2, h3⟩ := hok hpos
    have htd : timedeltaHours hours = some (hours * 3600) := by
      simp [timedeltaHours, h1]
    have hds : datetimeSub now (hours * 3600) = some (now - hours * 3600) := by
      unfold datetimeSub
      rw [if_pos ⟨h2, h3⟩]
    refine ⟨queryRows tbl (some (now - hours * 3600)), ?_, ?_⟩
    · simp [selectRows, hpos, htd, hds]
    · intro r
      unfold queryRows sinceFilter
      rw [List.mem_mergeSort, List.mem_filter]
      simp only [decide_eq_true_eq]
      exact ⟨fun h => ⟨h.1, fun _ => h.2⟩, fun h => ⟨h.1, h.2 hpos⟩⟩
  · refine ⟨queryRows tbl none, ?_, ?_⟩
    · simp [selectRows, hpos]
    · intro r
      unfold queryRows sinceFilter
      rw [List.mem_mergeSort]
      exact ⟨fun h => ⟨h, fun hp => absurd hp hpos⟩, fun h => h.1⟩

/-- C4 counterexample: at `hours = 10^9` (a positive integer) the `since`
computation overflows Python's `datetime` range, so the handler raises instead
of returning the stored samples with `timestamp >= now - hours` — here the
whole table, since the bound is far in the past. -/
theorem lookback_filter_cex :
    (0 : Int) < 1000000000 ∧
    1760000000 - 1000000000 * 3600 ≤ (100 : Int) ∧
    selectRows [⟨100, 260, "A", 5⟩] 1760000000 1000000000 = none := by
  refine ⟨by decide, by decide, ?_⟩
  have htd : timedeltaHours 1000000000 = some 3600000000000 := by decide
  have hds : datetimeSub 1760000000 3600000000000 = none := by decide
  simp [selectRows, htd, hds]

/-- C4 (amended): for every integer `hours` whose `since` computation stays
inside Python's `timedelta` and `datetime` bounds, a positive `hours` selects
exactly the stored samples with `timestamp >= now - hours` (in seconds), and a
non-positive `hours` selects the entire stored history. -/
theorem lookback_filter (tbl : List Row) (now hours : Int)
    (hok : 0 < hours → ((hours * 3600).fdiv 86400).natAbs ≤ 999999999 ∧
      pyDatetimeMinS ≤ now - hours * 3600 ∧ now - hours * 3600 ≤ pyDatetimeMaxS) :
    ∃ l, selectRows tbl now hours = some l ∧
      ∀ r, r ∈ l ↔ (r ∈ tbl ∧ (0 < hours → now - hours * 3600 ≤ r.timestamp)) :=
  selectRows_spec tbl now hours hok

/-- Witness for C4: samples 30 minutes and 2 hours old; `hours = 1` keeps
exactly the fresh one (the stale one fails the stated filter). -/
theorem lookback_filter_witness :
    ∃ l, selectRows [⟨1759998200, 260, "A", 5⟩, ⟨1759992800, 261, "B", 7⟩]
        1760000000 1 = some l ∧
      ∀ r, r ∈ l ↔
        (r ∈ [(⟨1759998200, 260, "A", 5⟩ : Row), ⟨1759992800, 261, "B", 7⟩] ∧
          (0 < (1 : Int) → 1760000000 - 1 * 3600 ≤ r.timestamp)) :=
  lookback_filter [⟨1759998200, 260, "A", 5⟩, ⟨1759992800, 261, "B", 7⟩]
    1760000000 1 (fun _ => by decide)

/-- C9 counterexample: `hours = 10^9` is a positive integer for which the
handler's `since` computation raises `OverflowError`, so `GET /api/data`
produces an error (HTTP 500), not a 200 JSON mapping. -/
theorem get_data_overflow_cex :
    (0 : Int) < 1000000000 ∧ get_data [] 1760000000 1000000000 = none := by
  refine ⟨by decide, ?_⟩
  have htd : timedeltaHours 1000000000 = some 3600000000000 := by decide
  have hds : datetimeSub 1760000000 3600000000000 = none := by decide
  simp [get_data, selectRows, htd, hds]

/-- C9 (amended): the handler evaluates without raising and returns a JSON
mapping for every integer `hours` whose `since` computation stays inside
Python's `timedelta` and `datetime` bounds (all non-positive `hours`, and
positive ones that do not push `now - hours` out of the datetime range). -/
theorem get_data_total (tbl : List Row) (now hours : Int)
    (hok : 0 < hours → ((hours * 3600).fdiv 86400).natAbs ≤ 999999999 ∧
      pyDatetimeMinS ≤ now - hours * 3600 ∧ now - hours * 3600 ≤ pyDatetimeMaxS) :
    ∃ m, get_data tbl now hours = some m := by
  obtain ⟨l, hl, _⟩ := selectRows_spec tbl now hours hok
  exact ⟨groupRows l, by simp [get_data, hl]⟩

/-- Witness for C9 at `hours = 24` on an empty table. -/
theorem get_data_total_witness :
    ∃ m, get_data [] 1760000000 24 = some m :=
  get_data_total [] 1760000000 24 (fun _ => by decide)

/-- C6 counterexample: the JSON boolean `true` is a well-formed status value
other than the integer 1, yet Python's `data.get("status") == 1` accepts it
(`True == 1`), so the tick stores samples instead of skipping. -/
theorem status_gate_cex :
    statusIsOne (some (StatusVal.bool true)) = true ∧
    StatusVal.bool true ≠ StatusVal.int 1 ∧
    fetch_and_store []
        (FetchOutcome.parsed ⟨some (StatusVal.bool true), some [⟨260, "X", 5⟩]⟩)
        100 ≠ [] := by
  refine ⟨rfl, by decide, ?_⟩
  intro h
  simp [fetch_and_store, statusIsOne, pyEqOneVal, appendBatch, insertRow,
    hasKey, rowsOf] at h

/-- C6 (amended): the tick stores zero samples exactly when the top-level
`status` value does not compare equal to `1` under Python `==` — besides the
integer `1`, the float `1.0` and the boolean `true` also pass the gate; every
other value (and an absent field) is treated as a skip, not an error. -/
theorem status_gate (tbl : List Row) (resp : ApiResp) (now : Int)
    (h : statusIsOne resp.status = false) :
    fetch_and_store tbl (FetchOutcome.parsed resp) now = tbl := by
  simp [fetch_and_store, h]

/-- Witness for C6: `status = 0` skips the tick. -/
theorem status_gate_witness :
    fetch_and_store [⟨50, 260, "A", 3⟩]
      (FetchOutcome.parsed ⟨some (StatusVal.int 0), some [⟨260, "X", 5⟩]⟩) 100 =
      [⟨50, 260, "A", 3⟩] :=
  status_gate [⟨50, 260, "A", 3⟩] ⟨some (StatusVal.int 0), some [⟨260, "X", 5⟩]⟩
    100 rfl

/-- One grouping step changes the series stored under `name` exactly when the
row carries that name: it appends to an existing entry or creates a fresh
singleton entry; other names are untouched. -/
theorem lookupSeries_addRow (data : List (String × Series)) (r : Row) (name : String) :
    lookupSeries (addRow data r) name =
      if r.location_name == name then
        match lookupSeries data name with
        | some s => some ⟨s.timestamps ++ [r.timestamp], s.capacities ++ [r.capacity]⟩
        | none => some ⟨[r.timestamp], [r.capacity]⟩
      else lookupSeries data name := by
  cases hmem : data.any (fun p => p.1 == r.location_name) with
  | true =>
    simp only [addRow, hmem, if_true]
    unfold lookupSeries
    rw [List.find?_map]
    cases hname : r.location_name == name with
    | true =>
      have hnm : r.location_name = name := eq_of_beq hname
      have hsome : (data.find? (fun p => p.1 == name)).isSome = true := by
        rw [List.find?_isSome]
        obtain ⟨x, hx, hpx⟩ := List.any_eq_true.mp hmem
        exact ⟨x, hx, by rw [← hnm]; exact hpx⟩
      obtain ⟨q, hq⟩ := Option.isSome_iff_exists.mp hsome
      have hq1 := List.find?_some hq
      have hq2 : (q.1 == r.location_name) = true := by rw [hnm]; exact hq1
      have hpred : ((fun p : String × Series => p.1 == name) ∘
          (fun p : String × Series =>
            if p.1 == r.location_name then
              (p.1, { timestamps := p.2.timestamps ++ [r.timestamp],
                      capacities := p.2.capacities ++ [r.capacity] })
            else p)) = fun p : String × Series => p.1 == name := by
        funext p
        by_cases h : (p.1 == r.location_name) = true
        · rw [Function.comp_apply, if_pos h]
        · rw [Function.comp_apply, if_neg h]
      rw [hpred, hq]
      have hq2' : q.1 = r.location_name := eq_of_beq hq2
      simp [hq2, hq2']
    | false =>
      have hpred : ((fun p : String × Series => p.1 == name) ∘
          (fun p : String × Series =>
            if p.1 == r.location_name then
              (p.1, { timestamps := p.2.timestamps ++ [r.timestamp],
                      capacities := p.2.capacities ++ [r.capacity] })
            else p)) = fun p : String × Series => p.1 == name := by
        funext p
        by_cases h : (p.1 == r.location_name) = true
        · rw [Function.comp_apply, if_pos h]
        · rw [Function.comp_apply, if_neg h]
      rw [hpred]
      cases hq : data.find? (fun p => p.1 == name) with
      | none => simp [hq]
      | some q =>
        have hq1 := List.find?_some hq
        have hq2 : (q.1 == r.location_name) = false := by
          rw [beq_eq_false_iff_ne]
          intro hEq
          have hrn : r.location_name = name := by
            rw [← hEq]
            exact eq_of_beq hq1
          rw [hrn] at hname
          simp at hname
        have hq2' : q.1 ≠ r.location_name := beq_eq_false_iff_ne.mp hq2
        simp [hq2, hq2']
  | false =>
    simp only [addRow, hmem, Bool.false_eq_true, if_false]
    unfold lookupSeries
    rw [List.find?_append]
    cases hname : r.location_name == name with
    | true =>
      have hnm : r.location_name = name := eq_of_beq hname
      have hnone : data.find? (fun p => p.1 == name) = none := by
        rw [List.find?_eq_none]
        intro x hx
        rw [← hnm]
        exact List.any_eq_false.mp hmem x hx
      rw [hnone]
      simp [List.find?, hname]
    | false =>
      cases hq : data.find? (fun p => p.1 == name) with
      | none => simp [hq, List.find?, hname]
      | some q => simp [hq]

/-- Invariant of the grouping loop: the series accumulated for each name is
the (possibly pre-existing) prefix followed by the projection of the rows
carrying that name, in row order. -/
theorem lookupSeries_groupLoop (rows : List Row) :
    ∀ (data : List (String × Series)) (name : String),
      lookupSeries (groupLoop rows data) name =
        match lookupSeries data name with
        | some s => some ⟨s.timestamps ++ (seriesFor rows name).timestamps,
                          s.capacities ++ (seriesFor rows name).capacities⟩
        | none =>
          if rows.any (fun r => r.location_name == name) then some (seriesFor rows name)
          else none := by
  induction rows with
  | nil =>
    intro data name
    simp only [groupLoop, seriesFor, List.filter_nil, List.map_nil, List.any_nil,
      List.append_nil, Bool.false_eq_true, if_false]
    cases lookupSeries data name <;> rfl
  | cons r rs ih =>
    intro data name
    show lookupSeries (groupLoop rs (addRow data r)) name = _
    rw [ih (addRow data r) name, lookupSeries_addRow]
    cases hname : r.location_name == name with
    | true =>
      cases hlk : lookupSeries data name with
      | some s => simp [seriesFor, List.filter_cons, hname, hlk]
      | none => simp [seriesFor, List.filter_cons, List.any_cons, hname, hlk]
    | false =>
      cases hlk : lookupSeries data name with
      | some s => simp [seriesFor, List.filter_cons, List.any_cons, hname, hlk]
      | none => simp [seriesFor, List.filter_cons, List.any_cons, hname, hlk]

/-- `get_data`'s mapping holds, for each name occurring in the rows, exactly
the projection of the rows carrying that name. -/
theorem lookupSeries_groupRows (rows : List Row) (name : String) :
    lookupSeries (groupRows rows) name =
      if rows.any (fun r => r.location_name == name) then some (seriesFor rows name)
      else none := by
  have h := lookupSeries_groupLoop rows [] name
  simpa [groupRows, lookupSeries] using h

theorem keys_addRow (data : List (String × Series)) (r : Row) :
    (addRow data r).map Prod.fst =
      if (data.map Prod.fst).any (fun m => m == r.location_name) then
        data.map Prod.fst
      else data.map Prod.fst ++ [r.location_name] := by
  cases hmem : data.any (fun p => p.1 == r.location_name) with
  | true =>
    have hco : (data.map Prod.fst).any (fun m => m == r.location_name) = true := by
      obtain ⟨x, hx, hpx⟩ := List.any_eq_true.mp hmem
      exact List.any_eq_true.mpr ⟨x.1, List.mem_map_of_mem Prod.fst hx, hpx⟩
    simp only [addRow, hmem, if_true, hco, List.map_map]
    have hfst : (Prod.fst ∘ (fun p : String × Series =>
        if p.1 == r.location_name then
          (p.1, { timestamps := p.2.timestamps ++ [r.timestamp],
                  capacities := p.2.capacities ++ [r.capacity] })
        else p)) = Prod.fst := by
      funext p
      by_cases h : (p.1 == r.location_name) = true
      · rw [Function.comp_apply, if_pos h]
      · rw [Function.comp_apply, if_neg h]
    rw [hfst]
  | false =>
    have hco : (data.map Prod.fst).any (fun m => m == r.location_name) = false := by
      rw [List.any_eq_false]
      intro m hm
      obtain ⟨x, hx, rfl⟩ := List.mem_map.mp hm
      exact List.any_eq_false.mp hmem x hx
    simp [addRow, hmem, hco]

theorem keys_groupLoop (rows : List Row) :
    ∀ data : List (String × Series),
      (groupLoop rows data).map Prod.fst =
        (rows.map Row.location_name).foldl
          (fun acc n => if acc.any (fun m => m == n) then acc else acc ++ [n])
          (data.map Prod.fst) := by
  induction rows with
  | nil => intro data; rfl
  | cons r rs ih =>
    intro data
    show (groupLoop rs (addRow data r)).map Prod.fst = _
    rw [ih (addRow data r), keys_addRow]
    rfl

/-- The keys of `get_data`'s mapping are the location names in first-seen
order. -/
theorem keys_groupRows (rows : List Row) :
    (groupRows rows).map Prod.fst = firstSeen (rows.map Row.location_name) := by
  have h := keys_groupLoop rows []
  simpa [groupRows, firstSeen] using h

theorem firstSeen_aux_nodup (names : List String) :
    ∀ acc : List String, acc.Nodup →
      (names.foldl (fun acc n => if acc.any (fun m => m == n) then acc else acc ++ [n])
        acc).Nodup := by
  induction names with
  | nil => intro acc h; exact h
  | cons n ns ih =>
    intro acc hacc
    simp only [List.foldl_cons]
    apply ih
    cases h : acc.any (fun m => m == n) with
    | true => simpa [h] using hacc
    | false =>
      simp only [h, Bool.false_eq_true, if_false]
      rw [List.nodup_append]
      refine ⟨hacc, List.nodup_singleton n, ?_⟩
      intro a ha hb
      have : a = n := by simpa using hb
      subst this
      have := List.any_eq_false.mp h a ha
      simp at this

theorem firstSeen_nodup (names : List String) : (firstSeen names).Nodup :=
  firstSeen_aux_nodup names [] List.nodup_nil

/-- C3: grouping correctness.  For every (sorted) row sequence, the mapping's
keys are the location names in first-seen order, each name's series is the
projection of exactly the rows carrying that name (so the i-th timestamp and
the i-th capacity come from the same row, and the two lists have equal
length); on the spec's concrete input `[(t1, A, 10), (t1, B, 5), (t2, A, 12)]`
the mapping is `{A: ([t1, t2], [10, 12]), B: ([t1], [5])}`. -/
theorem grouping_correct :
    (∀ rows : List Row, rows.Pairwise (fun a b => rowLe a b = true) →
      ((groupRows rows).map Prod.fst = firstSeen (rows.map Row.location_name) ∧
        (∀ name : String, lookupSeries (groupRows rows) name =
          if rows.any (fun r => r.location_name == name) then some (seriesFor rows name)
          else none) ∧
        (∀ name : String,
          (seriesFor rows name).timestamps.length =
            (seriesFor rows name).capacities.length))) ∧
    groupRows [⟨100, 1, "A", 10⟩, ⟨100, 2, "B", 5⟩, ⟨200, 1, "A", 12⟩] =
      [("A", ⟨[100, 200], [10, 12]⟩), ("B", ⟨[100], [5]⟩)] := by
  constructor
  · intro rows _
    exact ⟨keys_groupRows rows, fun name => lookupSeries_groupRows rows name,
      fun name => by simp [seriesFor]⟩
  · decide

/-- Witness for C3 at the spec's concrete input. -/
theorem grouping_correct_witness :
    lookupSeries
        (groupRows [⟨100, 1, "A", 10⟩, ⟨100, 2, "B", 5⟩, ⟨200, 1, "A", 12⟩]) "A" =
      some ⟨[100, 200], [10, 12]⟩ := by
  have h := (grouping_correct.1
    [⟨100, 1, "A", 10⟩, ⟨100, 2, "B", 5⟩, ⟨200, 1, "A", 12⟩] (by decide)).2.1 "A"
  rw [h]
  decide

/-- C10: the grouping keys on `location_name` only.  Two rows with the same
name but distinct `location_id`s land in the single series stored under that
name (whose contents are the name-filtered rows in row order), and no name
ever has two entries, so series are never separated by id. -/
theorem grouping_keyed_by_name_only (rows : List Row) (r1 r2 : Row)
    (h1 : r1 ∈ rows) (h2 : r2 ∈ rows)
    (hname : r1.location_name = r2.location_name)
    (_hid : r1.location_id ≠ r2.location_id) :
    ((groupRows rows).map Prod.fst).Nodup ∧
    lookupSeries (groupRows rows) r1.location_name =
      some (seriesFor rows r1.location_name) ∧
    r1.timestamp ∈ (seriesFor rows r1.location_name).timestamps ∧
    r2.timestamp ∈ (seriesFor rows r1.location_name).timestamps := by
  have hany : rows.any (fun r => r.location_name == r1.location_name) = true :=
    List.any_eq_true.mpr ⟨r1, h1, by simp⟩
  refine ⟨?_, ?_, ?_, ?_⟩
  · rw [keys_groupRows]
    exact firstSeen_nodup _
  · rw [lookupSeries_groupRows]
    simp [hany]
  · simp only [seriesFor]
    exact List.mem_map_of_mem Row.timestamp (List.mem_filter.mpr ⟨h1, by simp⟩)
  · simp only [seriesFor]
    exact List.mem_map_of_mem Row.timestamp (List.mem_filter.mpr ⟨h2, by simp [hname]⟩)

/-- Witness for C10: ids 1 and 2 share the name A and land in one series. -/
theorem grouping_keyed_by_name_only_witness :
    ((groupRows [⟨100, 1, "A", 10⟩, ⟨200, 2, "A", 12⟩]).map Prod.fst).Nodup ∧
    lookupSeries (groupRows [⟨100, 1, "A", 10⟩, ⟨200, 2, "A", 12⟩]) "A" =
      some (seriesFor [⟨100, 1, "A", 10⟩, ⟨200, 2, "A", 12⟩] "A") ∧
    (100 : Int) ∈ (seriesFor [⟨100, 1, "A", 10⟩, ⟨200, 2, "A", 12⟩] "A").timestamps ∧
    (200 : Int) ∈ (seriesFor [⟨100, 1, "A", 10⟩, ⟨200, 2, "A", 12⟩] "A").timestamps :=
  grouping_keyed_by_name_only [⟨100, 1, "A", 10⟩, ⟨200, 2, "A", 12⟩]
    ⟨100, 1, "A", 10⟩ ⟨200, 2, "A", 12⟩ (by decide) (by decide) rfl (by decide)

/-- C8 counterexample: after an eager `start_scheduler()` the module flag
`scheduler_started` is still false, so the first request's lazy path calls
`start_scheduler()` again while the scheduler is running — performing an
additional fetch and store (the ghost fetch counter advances and the table
grows), hence not a no-op. -/
theorem activation_idempotence_cex :
    (start_scheduler ⟨false, 0, false, false, [], 0⟩
        (FetchOutcome.parsed ⟨some (StatusVal.int 1), some [⟨260, "X", 5⟩]⟩)
        100).schedulerRunning = true ∧
    (start_scheduler ⟨false, 0, false, false, [], 0⟩
        (FetchOutcome.parsed ⟨some (StatusVal.int 1), some [⟨260, "X", 5⟩]⟩)
        100).fetchCount = 1 ∧
    ensure_scheduler_started
        (start_scheduler ⟨false, 0, false, false, [], 0⟩
          (FetchOutcome.parsed ⟨some (StatusVal.int 1), some [⟨260, "X", 5⟩]⟩)
          100)
        (FetchOutcome.parsed ⟨some (StatusVal.int 1), some [⟨260, "X", 7⟩]⟩)
        200 ≠
      start_scheduler ⟨false, 0, false, false, [], 0⟩
        (FetchOutcome.parsed ⟨some (StatusVal.int 1), some [⟨260, "X", 5⟩]⟩)
        100 ∧
    (ensure_scheduler_started
        (start_scheduler ⟨false, 0, false, false, [], 0⟩
          (FetchOutcome.parsed ⟨some (StatusVal.int 1), some [⟨260, "X", 5⟩]⟩)
          100)
        (FetchOutcome.parsed ⟨some (StatusVal.int 1), some [⟨260, "X", 7⟩]⟩)
        200).fetchCount = 2 := by
  refine ⟨rfl, rfl, ?_, rfl⟩
  decide

/-- C8 (amended): a second activation through the lazy path after the lazy
flag is set is a no-op, and any second activation while the scheduler runs
arms no second timer and leaves the schema present; but the eager
`start_scheduler` path always re-runs `init_db` and `fetch_and_store`, so a
repeated activation can fetch and store again. -/
theorem activation_idempotent_amended (s : ProcState) (o : FetchOutcome) (now : Int) :
    (s.schedulerStarted = true → ensure_scheduler_started s o now = s) ∧
    (s.schedulerRunning = true →
      (start_scheduler s o now).jobs = s.jobs ∧
      (start_scheduler s o now).schedulerRunning = true ∧
      (start_scheduler s o now).schemaExists = true ∧
      (start_scheduler s o now).fetchCount = s.fetchCount + 1) := by
  constructor
  · intro h
    simp [ensure_scheduler_started, h]
  · intro h
    simp [start_scheduler, init_db, h]

/-- Witness for C8 (amended): a started-and-running state. -/
theorem activation_idempotent_amended_witness :
    (ensure_scheduler_started ⟨true, 1, true, true, [], 1⟩
        FetchOutcome.networkError 200 = ⟨true, 1, true, true, [], 1⟩) ∧
    ((start_scheduler ⟨true, 1, true, true, [], 1⟩
        FetchOutcome.networkError 200).jobs = 1 ∧
      (start_scheduler ⟨true, 1, true, true, [], 1⟩
        FetchOutcome.networkError 200).schedulerRunning = true ∧
      (start_scheduler ⟨true, 1, true, true, [], 1⟩
        FetchOutcome.networkError 200).schemaExists = true ∧
      (start_scheduler ⟨true, 1, true, true, [], 1⟩
        FetchOutcome.networkError 200).fetchCount = 1 + 1) :=
  ⟨(activation_idempotent_amended ⟨true, 1, true, true, [], 1⟩
      FetchOutcome.networkError 200).1 rfl,
    (activation_idempotent_amended ⟨true, 1, true, true, [], 1⟩
      FetchOutcome.networkError 200).2 rfl⟩

end BoulderBar
